import Mathlib

/-!
Verification of the car-dealer-scraper configuration/extraction pipeline.

Shallow embedding of the Python sources:
 * `src/config_manager.py` — key normalization, layered config deep-merge;
 * `src/utils/post_search_validator.py` — post-search validation heuristics
   and selector refinement;
 * `src/utils/llm_analyzer.py` — JSON bracket repair;
 * `src/utils/crawl4ai_discovery.py` — candidate URL scoring;
 * `src/scrape_dealers.py` / `src/utils/extraction.py` — field extraction,
   dealer-card parsing and per-session de-duplication.

Python dictionaries are modelled as association lists with unique keys
(insertion order preserved), Python strings as Lean `String`/`List Char`,
floats as rationals, and raised exceptions as `Except` values.
-/

namespace DealerScraper

/-! ## Config values (`config_manager.py`)

A YAML/JSON-like configuration value: scalars, lists, nested mappings.
Mappings are association lists in insertion order, as Python dicts. -/

inductive Cfg where
  | num  : Int → Cfg
  | str  : String → Cfg
  | list : List Cfg → Cfg
  | dict : List (String × Cfg) → Cfg

abbrev CDict := List (String × Cfg)

/-- Python dict lookup: first (unique) binding of a key. -/
def dlookup : CDict → String → Option Cfg
  | [], _ => none
  | (k', v') :: rest, k => if k' = k then some v' else dlookup rest k

/-- Python `d[key] = value`: rebind in place if the key exists, else append. -/
def dset : CDict → String → Cfg → CDict
  | [], k, v => [(k, v)]
  | (k', v') :: rest, k, v =>
    if k' = k then (k, v) :: rest else (k', v') :: dset rest k v

mutual

/-- Per-key body of the `_deep_merge` loop (config_manager.py:232-236): when
the key is already bound to a dict in the result and the override value is a
dict too, recursively merge the two; otherwise the override value wins. -/
def mergeOne : Option Cfg → Cfg → Cfg
  | some (.dict rd), .dict vd => .dict (deep_merge rd vd)
  | _, v => v
termination_by _a b => sizeOf b

/-- `ConfigManager._deep_merge` (config_manager.py:228-238): start from a copy
of `base`, then for each binding `(key, value)` of `override` in order, set
`result[key]` to `mergeOne result.get(key) value`. -/
def deep_merge (base : CDict) : CDict → CDict
  | [] => base
  | (k, v) :: rest => deep_merge (dset base k (mergeOne (dlookup base k) v)) rest
termination_by ov => sizeOf ov

end

/-- `ConfigManager.get_config` (config_manager.py:94-147), restricted to the
merging logic: base layer, then the generated (LLM) layer when present
(Python `if llm_config:` — an empty dict is falsy and skipped), then the
manual site layer. -/
def get_config (base llm site : CDict) : CDict :=
  let config := base
  let config := if llm.isEmpty then config else deep_merge config llm
  deep_merge config site

/-- The keys of a config dict are pairwise distinct (Python dict invariant). -/
def keysNodup (d : CDict) : Prop := (d.map Prod.fst).Nodup

instance (d : CDict) : Decidable (keysNodup d) := by
  unfold keysNodup; infer_instance

/-- One merge step on (optional) values, as `_deep_merge` performs per key:
both dicts ⇒ recursive merge, override present ⇒ override, else base. -/
def mergeVal : Option Cfg → Option Cfg → Option Cfg
  | b, none => b
  | b, some v => some (mergeOne b v)

theorem dlookup_dset_self (d : CDict) (k : String) (v : Cfg) :
    dlookup (dset d k v) k = some v := by
  induction d with
  | nil => simp [dset, dlookup]
  | cons hd tl ih =>
    obtain ⟨k', v'⟩ := hd
    by_cases h : k' = k
    · simp [dset, h, dlookup]
    · simp [dset, h, dlookup, ih]

theorem dlookup_dset_other (d : CDict) (k k' : String) (v : Cfg) (h : k' ≠ k) :
    dlookup (dset d k' v) k = dlookup d k := by
  induction d with
  | nil => simp [dset, dlookup, h]
  | cons hd tl ih =>
    obtain ⟨k₀, v₀⟩ := hd
    by_cases h0 : k₀ = k'
    · subst h0
      simp [dset, dlookup, h]
    · simp [dset, h0, dlookup, ih]

theorem dset_keys_of_mem (d : CDict) (k : String) (v : Cfg)
    (h : k ∈ d.map Prod.fst) : (dset d k v).map Prod.fst = d.map Prod.fst := by
  induction d with
  | nil => simp at h
  | cons hd tl ih =>
    obtain ⟨k₀, v₀⟩ := hd
    rw [List.map_cons] at h
    by_cases h0 : k₀ = k
    · simp [dset, h0]
    · rcases List.mem_cons.mp h with h | h
      · exact absurd h.symm h0
      · simp [dset, h0, ih h]

theorem dset_keys_of_not_mem (d : CDict) (k : String) (v : Cfg)
    (h : ¬ k ∈ d.map Prod.fst) :
    (dset d k v).map Prod.fst = d.map Prod.fst ++ [k] := by
  induction d with
  | nil => simp [dset]
  | cons hd tl ih =>
    obtain ⟨k₀, v₀⟩ := hd
    rw [List.map_cons] at h
    have h0 : k₀ ≠ k := fun e => h (e ▸ List.mem_cons_self _ _)
    have htl : ¬ k ∈ tl.map Prod.fst := fun hm => h (List.mem_cons_of_mem _ hm)
    simp [dset, h0, ih htl]

theorem keysNodup_dset (d : CDict) (k : String) (v : Cfg)
    (h : keysNodup d) : keysNodup (dset d k v) := by
  unfold keysNodup at *
  by_cases hm : k ∈ d.map Prod.fst
  · rw [dset_keys_of_mem d k v hm]; exact h
  · rw [dset_keys_of_not_mem d k v hm]
    refine List.Nodup.append h (List.nodup_singleton k) ?_
    intro a ha hb
    rw [List.mem_singleton] at hb
    exact hm (hb ▸ ha)

theorem mergeVal_none (x : Option Cfg) : mergeVal x none = x := rfl

theorem dlookup_eq_none_of_not_mem (d : CDict) (k : String)
    (h : ¬ k ∈ d.map Prod.fst) : dlookup d k = none := by
  induction d with
  | nil => rfl
  | cons hd tl ih =>
    obtain ⟨k₀, v₀⟩ := hd
    rw [List.map_cons] at h
    have h0 : k₀ ≠ k := fun e => h (e ▸ List.mem_cons_self _ _)
    have htl : ¬ k ∈ tl.map Prod.fst := fun hm => h (List.mem_cons_of_mem _ hm)
    simp [dlookup, h0, ih htl]

/-- Key lemma for the merge claim: looking a key up in `_deep_merge base ov`
gives the recursive-merge of the two layers' values at that key, provided the
override layer has unique keys (always true of a Python dict). -/
theorem dlookup_deep_merge (ov : CDict) (hov : keysNodup ov) :
    ∀ (base : CDict) (k : String),
    dlookup (deep_merge base ov) k = mergeVal (dlookup base k) (dlookup ov k) := by
  induction ov with
  | nil =>
    intro base k
    simp [deep_merge, dlookup, mergeVal_none]
  | cons hd rest ih =>
    obtain ⟨k', v⟩ := hd
    intro base k
    have hov' := hov
    unfold keysNodup at hov'
    rw [List.map_cons, List.nodup_cons] at hov'
    have hk' : k' ∉ rest.map Prod.fst := hov'.1
    have hrest : keysNodup rest := hov'.2
    rw [deep_merge]
    by_cases hkk : k' = k
    · subst hkk
      have hnone : dlookup rest k' = none := dlookup_eq_none_of_not_mem _ _ hk'
      rw [ih hrest, hnone, mergeVal_none, dlookup_dset_self]
      simp [dlookup, mergeVal]
    · rw [ih hrest, dlookup_dset_other _ _ _ _ hkk]
      simp [dlookup, hkk]

/-- Example layers from the spec: base `{a:1,b:2}`, generated `{b:3,c:4}`,
manual `{c:5}`. -/
def exBase : CDict := [("a", .num 1), ("b", .num 2)]

def exGen : CDict := [("b", .num 3), ("c", .num 4)]

def exMan : CDict := [("c", .num 5)]

/-- C1: `get_config` returns the deep merge of the base, generated (LLM) and
manual layers in strict precedence manual > generated > base: at every key the
result holds `mergeVal (mergeVal base[k] llm[k]) site[k]`, i.e. nested dicts on
both sides are merged key-by-key recursively (`mergeOne`/`deep_merge`), any
other value is fully overridden by the higher-precedence layer, and a key
present in only one layer keeps that layer's value; in particular
base `{a:1,b:2}`, generated `{b:3,c:4}`, manual `{c:5}` merge to
`{a:1,b:3,c:5}`. -/
theorem get_config_is_precedence_deep_merge :
    (∀ (base llm site : CDict) (k : String), keysNodup llm → keysNodup site →
      dlookup (get_config base llm site) k =
        mergeVal (mergeVal (dlookup base k) (dlookup llm k)) (dlookup site k))
    ∧ get_config exBase exGen exMan =
        [("a", .num 1), ("b", .num 3), ("c", .num 5)] := by
  constructor
  · intro base llm site k hllm hsite
    simp only [get_config]
    by_cases hE : llm.isEmpty
    · have hnil : llm = [] := List.isEmpty_iff.mp hE
      subst hnil
      rw [if_pos hE]
      rw [dlookup_deep_merge site hsite base k]
      simp [dlookup, mergeVal_none]
    · simp only [if_neg hE]
      rw [dlookup_deep_merge site hsite _ k, dlookup_deep_merge llm hllm base k]
  · simp [get_config, exBase, exGen, exMan, deep_merge, mergeOne, dset, dlookup]

/-- Witness for C1 at the spec's example layers: the hypotheses (unique keys
in each layer) hold and the merged lookups give `a ↦ 1`, `b ↦ 3`, `c ↦ 5`. -/
theorem get_config_is_precedence_deep_merge_witness :
    dlookup (get_config exBase exGen exMan) "a" = some (.num 1) ∧
    dlookup (get_config exBase exGen exMan) "b" = some (.num 3) ∧
    dlookup (get_config exBase exGen exMan) "c" = some (.num 5) := by
  refine ⟨?_, ?_, ?_⟩ <;>
    rw [get_config_is_precedence_deep_merge.1 exBase exGen exMan _
      (by decide) (by decide)] <;>
    simp [exBase, exGen, exMan, dlookup, mergeVal, mergeOne]

/-! ## Site-key normalization (`config_manager.py:39-56`)

`_normalize_key` does `key.lower().replace('www.', '').rstrip('/')` (empty
input short-circuits to `""`).  Python `str.replace` removes every
non-overlapping occurrence, scanning left to right. -/

/-- Python `str.lower()` (ASCII range, as `Char.toLower`). -/
def pyLower (s : List Char) : List Char := s.map Char.toLower

/-- Python `s.replace('www.', '')`: remove every non-overlapping occurrence of
`www.`, scanning left to right. -/
def stripWWW : List Char → List Char
  | 'w' :: 'w' :: 'w' :: '.' :: rest => stripWWW rest
  | c :: rest => c :: stripWWW rest
  | [] => []

/-- Python `s.rstrip('/')`: drop trailing slashes. -/
def rstripSlash (s : List Char) : List Char :=
  (s.reverse.dropWhile (· = '/')).reverse

/-- `ConfigManager._normalize_key` (config_manager.py:39-56). -/
def normalize_key (s : List Char) : List Char :=
  if s = [] then [] else rstripSlash (stripWWW (pyLower s))

/-- Does the string contain the substring `www.`? -/
def hasWWW : List Char → Bool
  | 'w' :: 'w' :: 'w' :: '.' :: _ => true
  | _ :: rest => hasWWW rest
  | [] => false

example : normalize_key "WWW.Ford.com/".data = "ford.com".data := by decide

example : normalize_key "wwwwww..".data = "www.".data := by decide

example : normalize_key (normalize_key "wwwwww..".data) = [] := by decide

theorem char_toNat_ofNat_of_valid {n : Nat} (h : Nat.isValidChar n) :
    (Char.ofNat n).toNat = n := by
  rw [Char.ofNat, dif_pos h]
  rfl

theorem toLower_eq (c : Char) : Char.toLower c =
    if c.toNat ≥ 65 ∧ c.toNat ≤ 90 then Char.ofNat (c.toNat + 32) else c := rfl

/-- ASCII lowercasing is idempotent. -/
theorem toLower_idem (c : Char) : (Char.toLower c).toLower = c.toLower := by
  by_cases h : c.toNat ≥ 65 ∧ c.toNat ≤ 90
  · have h1 : Char.toLower c = Char.ofNat (c.toNat + 32) := by
      rw [toLower_eq, if_pos h]
    have h2 : (Char.toLower c).toNat = c.toNat + 32 := by
      rw [h1]
      exact char_toNat_ofNat_of_valid (Or.inl (by omega))
    rw [toLower_eq (Char.toLower c), if_neg (by rw [h2]; omega)]
  · have h1 : Char.toLower c = c := by rw [toLower_eq, if_neg h]
    rw [h1]
    exact h1

theorem mem_stripWWW {c : Char} : ∀ {s : List Char}, c ∈ stripWWW s → c ∈ s := by
  intro s
  induction s using stripWWW.induct with
  | case1 rest ih =>
    intro h
    exact List.mem_cons_of_mem _ (List.mem_cons_of_mem _
      (List.mem_cons_of_mem _ (List.mem_cons_of_mem _ (ih h))))
  | case2 c' rest hne ih =>
    intro h
    rw [stripWWW] at h
    · rcases List.mem_cons.mp h with h | h
      · subst h
        exact List.mem_cons_self _ _
      · exact List.mem_cons_of_mem _ (ih h)
    · exact hne
  | case3 =>
    intro h
    exact h

/-- A string with no occurrence of `www.` is unchanged by `replace('www.','')`. -/
theorem stripWWW_of_not_hasWWW : ∀ {s : List Char}, hasWWW s = false →
    stripWWW s = s := by
  intro s
  induction s using stripWWW.induct with
  | case1 rest ih =>
    intro h
    rw [hasWWW] at h
    exact absurd h (by simp)
  | case2 c' rest hne ih =>
    intro h
    have hrest : hasWWW rest = false := by
      rw [hasWWW] at h
      · exact h
      · exact hne
    rw [stripWWW]
    · rw [ih hrest]
    · exact hne
  | case3 =>
    intro _
    rfl

theorem dropWhile_dropWhile (p : Char → Bool) (l : List Char) :
    List.dropWhile p (List.dropWhile p l) = List.dropWhile p l := by
  induction l with
  | nil => rfl
  | cons c rest ih =>
    by_cases h : p c
    · simp [List.dropWhile_cons, h, ih]
    · simp [List.dropWhile_cons, h]

theorem rstripSlash_idem (s : List Char) :
    rstripSlash (rstripSlash s) = rstripSlash s := by
  unfold rstripSlash
  rw [List.reverse_reverse, dropWhile_dropWhile]

theorem mem_rstripSlash {c : Char} {s : List Char} (h : c ∈ rstripSlash s) :
    c ∈ s := by
  unfold rstripSlash at h
  rw [List.mem_reverse] at h
  have := List.dropWhile_sublist (l := s.reverse) (p := (· = '/'))
  exact List.mem_reverse.mp (this.mem h)

theorem pyLower_fixed {s : List Char} (h : ∀ c ∈ s, Char.toLower c = c) :
    pyLower s = s := by
  unfold pyLower
  induction s with
  | nil => rfl
  | cons c rest ih =>
    rw [List.map_cons, h c (List.mem_cons_self _ _),
      ih (fun d hd => h d (List.mem_cons_of_mem _ hd))]

theorem mem_pyLower_toLower {c : Char} {s : List Char} (h : c ∈ pyLower s) :
    Char.toLower c = c := by
  unfold pyLower at h
  obtain ⟨d, _, rfl⟩ := List.mem_map.mp h
  exact toLower_idem d

/-- C2 counterexample: site-key normalization is not idempotent on every
string.  `"wwwwww.."` lowercases to itself; removing the (single, left-most)
occurrence of `"www."` leaves `"www."`, which a second normalization pass
removes entirely, so `normalize(normalize("wwwwww..")) = "" ≠ "www." =
normalize("wwwwww..")`. -/
theorem normalize_key_not_idempotent :
    normalize_key (normalize_key "wwwwww..".data) ≠
      normalize_key "wwwwww..".data ∧
    normalize_key "wwwwww..".data = "www.".data := by
  constructor
  · decide
  · decide

/-- C2 (amended): site-key normalization is idempotent on every input whose
normalization contains no residual `"www."` substring (which holds for every
ordinary domain-like key): `normalize(normalize(x)) = normalize(x)` whenever
`hasWWW (normalize x) = false`; and in particular
`normalize("WWW.Ford.com/") = "ford.com"`.  (The unrestricted claim fails,
see the counterexample: removing `"www."` occurrences can splice a new
`"www."` together.) -/
theorem normalize_key_idempotent_of_no_www :
    (∀ s : List Char, hasWWW (normalize_key s) = false →
      normalize_key (normalize_key s) = normalize_key s)
    ∧ normalize_key "WWW.Ford.com/".data = "ford.com".data := by
  constructor
  · intro s h
    by_cases hs : s = []
    · subst hs
      rfl
    · have ht : normalize_key s = rstripSlash (stripWWW (pyLower s)) := by
        rw [normalize_key, if_neg hs]
      by_cases htn : normalize_key s = []
      · rw [htn]
        rfl
      · have h1 : normalize_key (normalize_key s) =
            rstripSlash (stripWWW (pyLower (normalize_key s))) := by
          rw [normalize_key, if_neg htn]
        have hlow : pyLower (normalize_key s) = normalize_key s := by
          refine pyLower_fixed (fun c hc => ?_)
          rw [ht] at hc
          exact mem_pyLower_toLower (mem_stripWWW (mem_rstripSlash hc))
        have hstr : stripWWW (normalize_key s) = normalize_key s :=
          stripWWW_of_not_hasWWW h
        have hrs : rstripSlash (normalize_key s) = normalize_key s := by
          rw [ht]
          exact rstripSlash_idem _
        rw [h1, hlow, hstr, hrs]
  · decide

/-- Witness for C2 (amended) at `"WWW.Ford.com/"`: its normalization
`"ford.com"` contains no `"www."`, and normalizing again is the identity. -/
theorem normalize_key_idempotent_of_no_www_witness :
    hasWWW (normalize_key "WWW.Ford.com/".data) = false ∧
    normalize_key (normalize_key "WWW.Ford.com/".data) =
      normalize_key "WWW.Ford.com/".data :=
  ⟨by decide, normalize_key_idempotent_of_no_www.1 _ (by decide)⟩

/-! ## Candidate URL scoring (`utils/crawl4ai_discovery.py`)

`Crawl4AIDiscovery._score_url` (crawl4ai_discovery.py:320-372) scores the
lowercased path of a URL with an additive rule set.  `urlparse(url).path` is
modelled by `extractPath` for the `http://`/`https://` URLs this scraper
handles: strip scheme and netloc, stop the path at `?` or `#`. -/

/-- A high-value pattern `lit` + optional `s` + (`/` or end), or a bare
literal when `optS = false` — the two regex shapes in `HIGH_VALUE_PATTERNS`
(crawl4ai_discovery.py:52-63). -/
structure Pat where
  lit : List Char
  optS : Bool

/-- `HIGH_VALUE_PATTERNS` (crawl4ai_discovery.py:52-63). -/
def HIGH_VALUE_PATTERNS : List Pat :=
  [⟨"/dealer".data, true⟩, ⟨"/find-a-dealer".data, false⟩,
   ⟨"/find-dealer".data, false⟩, ⟨"/dealer-locator".data, false⟩,
   ⟨"/locate-dealer".data, false⟩, ⟨"/dealership".data, true⟩,
   ⟨"/location".data, true⟩, ⟨"/store-locator".data, false⟩,
   ⟨"/find-a-store".data, false⟩, ⟨"/retailer".data, true⟩]

/-- `LOCATOR_KEYWORDS` (crawl4ai_discovery.py:31-38). -/
def LOCATOR_KEYWORDS : List String :=
  ["dealer", "dealers", "dealership", "dealerships",
   "locator", "locate", "location", "locations",
   "find", "finder", "search", "directory",
   "store", "stores", "retailer", "retailers",
   "showroom", "showrooms", "branch", "branches"]

/-- `NEGATIVE_KEYWORDS` (crawl4ai_discovery.py:41-49). -/
def NEGATIVE_KEYWORDS : List String :=
  ["incentive", "offer", "build", "price", "compare", "inventory",
   "preowned", "pre-owned", "used", "lease", "apr", "credit",
   "quote", "estimate", "payment", "test-drive", "schedule",
   "finance", "financing", "parts", "service", "accessories",
   "recall", "warranty", "owner", "manual", "brochure",
   "news", "press", "media", "blog", "career", "jobs",
   "about", "contact", "privacy", "terms", "legal", "sitemap",
   "login", "signin", "register", "account", "cart", "checkout"]

/-- Does the regex tail `[s]?(?:/|$)` accept this remainder? -/
def endOk : List Char → Bool
  | [] => true
  | '/' :: _ => true
  | 's' :: [] => true
  | 's' :: '/' :: _ => true
  | _ => false

/-- Does the pattern match at the start of `s`? -/
def patMatchAt (p : Pat) (s : List Char) : Bool :=
  p.lit.isPrefixOf s && (!p.optS || endOk (s.drop p.lit.length))

/-- `re.search(pattern, path)`: does the pattern match anywhere in `s`? -/
def patSearch (p : Pat) : List Char → Bool
  | [] => patMatchAt p []
  | c :: rest => patMatchAt p (c :: rest) || patSearch p rest

/-- Python `needle in hay` substring containment. -/
def containsSub (needle : List Char) : List Char → Bool
  | [] => needle.isPrefixOf []
  | c :: rest => needle.isPrefixOf (c :: rest) || containsSub needle rest

/-- Split a path on `/` (Python `path.split('/')`). -/
def segments : List Char → List (List Char)
  | [] => [[]]
  | c :: rest =>
    if c = '/' then [] :: segments rest
    else
      match segments rest with
      | s :: ss => (c :: s) :: ss
      | [] => [[c]]

/-- `len([p for p in path.split('/') if p])`. -/
def pathDepth (path : List Char) : Nat :=
  ((segments path).filter (fun s => !s.isEmpty)).length

/-- Characters that end the path component. -/
def isPathStop (c : Char) : Bool := c = '?' || c = '#'

/-- The path component: everything up to `?` or `#`. -/
def takePath : List Char → List Char
  | [] => []
  | c :: rest => if isPathStop c then [] else c :: takePath rest

/-- Drop everything up to and including the first `/` (the netloc). -/
def dropNetloc : List Char → List Char
  | [] => []
  | c :: rest => if c = '/' then c :: rest else dropNetloc rest

/-- `urlparse(url).path` for the scheme-qualified URLs this scraper scores:
strip `http://`/`https://` and the netloc, stop at `?`/`#`; a URL without a
scheme is all path up to `?`/`#` (as `urlparse` with empty scheme/netloc). -/
def extractPath (u : List Char) : List Char :=
  if "https://".data.isPrefixOf u then takePath (dropNetloc (u.drop 8))
  else if "http://".data.isPrefixOf u then takePath (dropNetloc (u.drop 7))
  else takePath u

/-- `Crawl4AIDiscovery._score_url` (crawl4ai_discovery.py:320-372), written
as the source's sequence of additive passes over the lowered path. -/
def score_url (url : List Char) : Int :=
  let path := pyLower (extractPath url)
  let s1 := HIGH_VALUE_PATTERNS.foldl
    (fun sc p => if patSearch p path then sc + 10 else sc) 0
  let s2 := LOCATOR_KEYWORDS.foldl
    (fun sc kw => if containsSub kw.data path then sc + 3 else sc) s1
  let s3 := NEGATIVE_KEYWORDS.foldl
    (fun sc kw => if containsSub kw.data path then sc - 5 else sc) s2
  let s4 :=
    if pathDepth path ≤ 2 then s3 + 2
    else if pathDepth path > 4 then s3 - 2 else s3
  let s5 := if '#' ∈ url then s4 - 3 else s4
  if '?' ∈ url then s5 - 1 else s5

/-- Number of high-value patterns matching the (lowered) path of `url`. -/
def hvCount (url : List Char) : Nat :=
  (HIGH_VALUE_PATTERNS.filter
    (fun p => patSearch p (pyLower (extractPath url)))).length

/-- Number of locator keywords contained in the (lowered) path of `url`. -/
def kwCount (url : List Char) : Nat :=
  (LOCATOR_KEYWORDS.filter
    (fun kw => containsSub kw.data (pyLower (extractPath url)))).length

/-- Number of negative keywords contained in the (lowered) path of `url`. -/
def negCount (url : List Char) : Nat :=
  (NEGATIVE_KEYWORDS.filter
    (fun kw => containsSub kw.data (pyLower (extractPath url)))).length

/-- The structural adjustments: depth bonus/penalty, fragment and query
penalties. -/
def structAdj (url : List Char) : Int :=
  (if pathDepth (pyLower (extractPath url)) ≤ 2 then 2
   else if pathDepth (pyLower (extractPath url)) > 4 then -2 else 0)
  + (if '#' ∈ url then -3 else 0)
  + (if '?' ∈ url then -1 else 0)

theorem foldl_add_if {α : Type} (p : α → Bool) (a : Int) :
    ∀ (l : List α) (init : Int),
    l.foldl (fun sc x => if p x then sc + a else sc) init
      = init + a * ((l.filter p).length : Int) := by
  intro l
  induction l with
  | nil => intro init; simp
  | cons x rest ih =>
    intro init
    by_cases h : p x
    · simp only [List.foldl_cons, List.filter_cons, h, if_pos]
      rw [ih]
      simp
      ring
    · simp only [List.foldl_cons, List.filter_cons, h, if_neg]
      rw [ih]
      simp [h]

theorem foldl_sub_if {α : Type} (p : α → Bool) (a : Int) :
    ∀ (l : List α) (init : Int),
    l.foldl (fun sc x => if p x then sc - a else sc) init
      = init - a * ((l.filter p).length : Int) := by
  intro l
  induction l with
  | nil => intro init; simp
  | cons x rest ih =>
    intro init
    by_cases h : p x
    · simp only [List.foldl_cons, List.filter_cons, h, if_pos]
      rw [ih]
      simp
      ring
    · simp only [List.foldl_cons, List.filter_cons, h, if_neg]
      rw [ih]
      simp [h]

/-- `_score_url` in closed form: 10 per high-value pattern, +3 per locator
keyword, −5 per negative keyword, plus the structural adjustments. -/
theorem score_url_closed (url : List Char) :
    score_url url = 10 * (hvCount url : Int) + 3 * (kwCount url : Int)
      - 5 * (negCount url : Int) + structAdj url := by
  simp only [score_url, hvCount, kwCount, negCount, structAdj]
  rw [foldl_add_if, foldl_add_if, foldl_sub_if]
  split_ifs <;> ring

/-- C8: candidate scoring is additive over the URL path — +10 for each
matching high-value path pattern, +3 for each locator keyword contained in
the path, −5 for each negative keyword, +2 if the path has at most 2
segments, −2 if more than 4, −3 for a `#` fragment, −1 for a `?` query
(`structAdj`) — and is therefore monotonic in positive signals: one more
high-value pattern match with all other signals unchanged strictly increases
the score. -/
theorem score_url_additive_and_monotone :
    (∀ url : List Char, score_url url =
        10 * (hvCount url : Int) + 3 * (kwCount url : Int)
          - 5 * (negCount url : Int) + structAdj url)
    ∧ (∀ u1 u2 : List Char,
        hvCount u2 = hvCount u1 + 1 →
        kwCount u2 = kwCount u1 →
        negCount u2 = negCount u1 →
        structAdj u2 = structAdj u1 →
        score_url u1 < score_url u2) := by
  constructor
  · exact score_url_closed
  · intro u1 u2 h1 h2 h3 h4
    rw [score_url_closed, score_url_closed, h1, h2, h3, h4]
    push_cast
    omega

/-- Witness for C8: `https://x.com/retailer` matches the high-value pattern
`/retailer[s]?(?:/|$)` while `https://x.com/retailerx` does not; every other
signal agrees, and the scores are 5 and 15. -/
theorem score_url_additive_and_monotone_witness :
    hvCount "https://x.com/retailer".data
        = hvCount "https://x.com/retailerx".data + 1 ∧
    score_url "https://x.com/retailerx".data
      < score_url "https://x.com/retailer".data :=
  ⟨by decide,
   score_url_additive_and_monotone.2 _ _ (by decide) (by decide) (by decide)
     (by decide)⟩

/-! ## Selector refinement (`utils/post_search_validator.py:177-213`)

`PostSearchValidator.refine_selectors` copies the top-level config dict
(`original_config.copy()`, a *shallow* copy) and then assigns through the
shared nested `'selectors'` dict.  To talk about in-place mutation the
embedding gives Python dicts object identity: a `Heap` of dict objects
addressed by `Nat` references, with values `PyVal`. -/

inductive PyVal where
  | bool : Bool → PyVal
  | num  : ℚ → PyVal
  | str  : String → PyVal
  | list : List String → PyVal
  | ref  : Nat → PyVal
deriving DecidableEq, Repr

abbrev PyDict := List (String × PyVal)

abbrev Heap := List PyDict

/-- Dereference a dict object. -/
def getRef (h : Heap) (r : Nat) : PyDict := h.getD r []

/-- Overwrite a dict object in place. -/
def setRef (h : Heap) (r : Nat) (d : PyDict) : Heap := h.set r d

/-- Python dict lookup (`d.get(k)`), first binding wins. -/
def pdGet : PyDict → String → Option PyVal
  | [], _ => none
  | (k', v') :: rest, k => if k' = k then some v' else pdGet rest k

/-- Python `d.get(k, dflt)`. -/
def pdGetD (d : PyDict) (k : String) (dflt : PyVal) : PyVal :=
  (pdGet d k).getD dflt

/-- Python `d[k] = v`: rebind in place or append. -/
def pdSet : PyDict → String → PyVal → PyDict
  | [], k, v => [(k, v)]
  | (k', v') :: rest, k, v =>
    if k' = k then (k, v) :: rest else (k', v') :: pdSet rest k v

/-- Python truthiness of an optional value (`None` and missing are falsy;
empty string/list/dict and zero are falsy). -/
def pyTruthy (h : Heap) : Option PyVal → Bool
  | none => false
  | some (.bool b) => b
  | some (.num q) => q ≠ 0
  | some (.str s) => s ≠ ""
  | some (.list l) => !l.isEmpty
  | some (.ref r) => !(getRef h r).isEmpty

/-- `PostSearchValidator.refine_selectors` (post_search_validator.py:177-213)
over the heap model.  `none` models a raised `KeyError`/`TypeError` (config
without a `'selectors'` dict, or a non-dict `'metadata'` entry); the normal
path returns the new heap and a reference to the refined config. -/
def refine_selectors (h : Heap) (validation : PyDict) (cfgRef : Nat) :
    Option (Heap × Nat) :=
  if pyTruthy h (pdGet validation "needs_refinement") = false then
    some (h, cfgRef)
  else if pyTruthy h (pdGet validation "suggested_selectors") = false then
    some (h, cfgRef)
  else
    -- refined_config = original_config.copy()  (new object, shared values)
    let rref := h.length
    let h1 := h ++ [getRef h cfgRef]
    -- suggested_cards = validation['suggested_selectors'].get('dealer_cards', [])
    let sugg :=
      match pdGet validation "suggested_selectors" with
      | some (.ref sr) => pdGetD (getRef h1 sr) "dealer_cards" (.list [])
      | _ => .list []
    -- if suggested_cards: refined_config['selectors']['dealer_cards'] = sugg
    let step2 :=
      if pyTruthy h1 (some sugg) then
        match pdGet (getRef h1 rref) "selectors" with
        | some (.ref selr) =>
          some (setRef h1 selr (pdSet (getRef h1 selr) "dealer_cards" sugg))
        | _ => none
      else some h1
    match step2 with
    | none => none
    | some h2 =>
      -- if 'metadata' not in refined_config: refined_config['metadata'] = {}
      let step3 :=
        match pdGet (getRef h2 rref) "metadata" with
        | some (.ref mr) => some (h2, mr)
        | some _ => none
        | none =>
          let mr := h2.length
          let h3 := h2 ++ [[]]
          some (setRef h3 rref (pdSet (getRef h3 rref) "metadata" (.ref mr)),
            mr)
      match step3 with
      | none => none
      | some (h3, mref) =>
        -- the four metadata stamps
        let md := getRef h3 mref
        let md := pdSet md "post_search_validated" (.bool true)
        let md := pdSet md "validation_confidence"
          (pdGetD validation "confidence" (.num 0))
        let md := pdSet md "dealer_count" (pdGetD validation "dealer_count" (.num 0))
        let md := pdSet md "validation_notes" (pdGetD validation "notes" (.str ""))
        some (setRef h3 mref md, rref)

theorem getRef_setRef_self (h : Heap) (r : Nat) (d : PyDict)
    (hr : r < h.length) : getRef (setRef h r d) r = d := by
  unfold getRef setRef
  induction h generalizing r with
  | nil => simp at hr
  | cons x rest ih =>
    cases r with
    | zero => rfl
    | succ n =>
      simp only [List.set_cons_succ, List.getD_cons_succ]
      exact ih n (by simpa using hr)

theorem getRef_setRef_other (h : Heap) (r r' : Nat) (d : PyDict)
    (hne : r' ≠ r) : getRef (setRef h r d) r' = getRef h r' := by
  unfold getRef setRef
  induction h generalizing r r' with
  | nil => simp
  | cons x rest ih =>
    cases r with
    | zero =>
      cases r' with
      | zero => exact absurd rfl hne
      | succ m => simp
    | succ n =>
      cases r' with
      | zero => simp
      | succ m =>
        simp only [List.set_cons_succ, List.getD_cons_succ]
        exact ih n m (fun e => hne (by rw [e]))

theorem getRef_append_lt (h : Heap) (d : PyDict) (r : Nat)
    (hr : r < h.length) : getRef (h ++ [d]) r = getRef h r := by
  unfold getRef
  induction h generalizing r with
  | nil => simp at hr
  | cons x rest ih =>
    cases r with
    | zero => rfl
    | succ n =>
      simp only [List.cons_append, List.getD_cons_succ]
      exact ih n (by simpa using hr)

theorem getRef_append_len (h : Heap) (d : PyDict) :
    getRef (h ++ [d]) h.length = d := by
  unfold getRef
  induction h with
  | nil => rfl
  | cons x rest _ => simp

/-- Concrete heap for the refinement claim: object 0 is the original config
`{'selectors': <object 1>}`; object 1 is its nested selectors dict
`{'dealer_cards': ['old-selector']}`; object 2 is the heuristic's suggestion
`{'dealer_cards': ['new-selector']}`. -/
def c7Heap : Heap :=
  [[("selectors", .ref 1)],
   [("dealer_cards", .list ["old-selector"])],
   [("dealer_cards", .list ["new-selector"])]]

/-- A validation result that needs refinement and carries a suggestion, as
produced by `validate_search_results`. -/
def c7Validation : PyDict :=
  [("needs_refinement", .bool true), ("suggested_selectors", .ref 2),
   ("confidence", .num (7/10)), ("dealer_count", .num 5),
   ("notes", .str "heuristic")]

/-- C7 counterexample: `refine_selectors` does NOT leave the original
configuration unchanged.  `original_config.copy()` is a shallow copy, so the
assignment `refined_config['selectors']['dealer_cards'] = suggested_cards`
writes through the `'selectors'` dict shared with the original: before the
call the original's nested selectors dict held `['old-selector']`; after the
call it holds `['new-selector']`. -/
theorem refine_selectors_mutates_original :
    pdGet (getRef c7Heap 0) "selectors" = some (.ref 1) ∧
    getRef c7Heap 1 = [("dealer_cards", .list ["old-selector"])] ∧
    (refine_selectors c7Heap c7Validation 0).map (fun r => getRef r.1 1)
      = some [("dealer_cards", .list ["new-selector"])] := by
  refine ⟨rfl, rfl, ?_⟩
  rfl

/-- The heap produced by a successful refinement pass (fresh config copy at
`h.length`, mutated shared selectors dict, fresh metadata dict at
`h.length + 1`). -/
def refinedHeap (h : Heap) (validation : PyDict) (cfgRef selr : Nat)
    (cards : List String) : Heap :=
  let h1 := h ++ [getRef h cfgRef]
  let h2 := setRef h1 selr (pdSet (getRef h selr) "dealer_cards" (.list cards))
  let h3 := h2 ++ [[]]
  let h4 := setRef h3 h.length
    (pdSet (getRef h cfgRef) "metadata" (.ref (h.length + 1)))
  let md := pdSet (pdSet (pdSet (pdSet ([] : PyDict)
      "post_search_validated" (.bool true))
      "validation_confidence" (pdGetD validation "confidence" (.num 0)))
      "dealer_count" (pdGetD validation "dealer_count" (.num 0)))
      "validation_notes" (pdGetD validation "notes" (.str ""))
  setRef h4 (h.length + 1) md

/-- C7 (amended): when refinement applies a suggested selector,
`refine_selectors` returns a *new top-level* config object (the fresh
reference `h.length`), and the original top-level dict object is unchanged —
but, the copy being shallow, the nested `'selectors'` dict shared between
original and refined config is mutated in place: its `'dealer_cards'` entry
now holds the suggested list.  (The original claim — that the nested
`'selectors'` mapping is also unchanged — is refuted by the
counterexample.) -/
theorem refine_selectors_new_toplevel_but_shared_selectors_mutated
    (h : Heap) (validation : PyDict) (cfgRef selr sr : Nat)
    (cards : List String)
    (hneed : pyTruthy h (pdGet validation "needs_refinement") = true)
    (hsugg : pdGet validation "suggested_selectors" = some (.ref sr))
    (hsuggT : pyTruthy h (pdGet validation "suggested_selectors") = true)
    (hsrLt : sr < h.length)
    (hcards : pdGet (getRef h sr) "dealer_cards" = some (.list cards))
    (hcardsNE : cards.isEmpty = false)
    (hsel : pdGet (getRef h cfgRef) "selectors" = some (.ref selr))
    (hmeta : pdGet (getRef h cfgRef) "metadata" = none)
    (hcfgLt : cfgRef < h.length) (hselLt : selr < h.length)
    (hne : selr ≠ cfgRef) :
    refine_selectors h validation cfgRef
        = some (refinedHeap h validation cfgRef selr cards, h.length) ∧
    getRef (refinedHeap h validation cfgRef selr cards) cfgRef
        = getRef h cfgRef ∧
    getRef (refinedHeap h validation cfgRef selr cards) selr
        = pdSet (getRef h selr) "dealer_cards" (.list cards) := by
  have e1 : getRef (h ++ [getRef h cfgRef]) sr = getRef h sr :=
    getRef_append_lt _ _ _ hsrLt
  have e2 : getRef (h ++ [getRef h cfgRef]) h.length = getRef h cfgRef :=
    getRef_append_len _ _
  have e3 : getRef (h ++ [getRef h cfgRef]) selr = getRef h selr :=
    getRef_append_lt _ _ _ hselLt
  have elen : ∀ d : PyDict,
      (setRef (h ++ [getRef h cfgRef]) selr d).length = h.length + 1 := by
    intro d
    simp [setRef]
  have e4 : ∀ d : PyDict,
      getRef (setRef (h ++ [getRef h cfgRef]) selr d) h.length
        = getRef h cfgRef := by
    intro d
    rw [getRef_setRef_other _ _ _ _ (by omega), e2]
  have e5 : ∀ d : PyDict,
      getRef (setRef (h ++ [getRef h cfgRef]) selr d ++ [[]]) h.length
        = getRef h cfgRef := by
    intro d
    rw [getRef_append_lt _ _ _ (by rw [elen]; omega), e4]
  have e6 : ∀ d d' : PyDict,
      getRef (setRef (setRef (h ++ [getRef h cfgRef]) selr d ++ [[]])
        h.length d') (h.length + 1) = [] := by
    intro d d'
    rw [getRef_setRef_other _ _ _ _ (by omega)]
    have hl : (setRef (h ++ [getRef h cfgRef]) selr d).length
        = h.length + 1 := elen d
    rw [← hl]
    exact getRef_append_len _ _
  have hlen2 : ∀ d : PyDict,
      (setRef (h ++ [getRef h cfgRef]) selr d).length = h.length + 1 := elen
  refine ⟨?_, ?_, ?_⟩
  · rw [refine_selectors, hneed, if_neg (by simp), hsuggT, if_neg (by simp)]
    simp only [refinedHeap, hsugg, e1, e2, e3, pdGetD, hcards,
      Option.getD_some, pyTruthy, hcardsNE, Bool.not_false, if_true, hsel,
      hmeta, e4, e5, e6, hlen2]
  · simp only [refinedHeap]
    rw [getRef_setRef_other _ _ _ _ (by omega),
      getRef_setRef_other _ _ _ _ (by omega),
      getRef_append_lt _ _ _ (by rw [elen]; omega),
      getRef_setRef_other _ _ _ _ (fun e => hne e.symm),
      getRef_append_lt _ _ _ hcfgLt]
  · simp only [refinedHeap]
    rw [getRef_setRef_other _ _ _ _ (by omega),
      getRef_setRef_other _ _ _ _ (by omega),
      getRef_append_lt _ _ _ (by rw [elen]; omega),
      getRef_setRef_self _ _ _ (by simp; omega)]

/-- Witness for C7 (amended) at the concrete heap `c7Heap`: refinement
returns the fresh reference 3, leaves the original top-level config object 0
unchanged, and rewrites the shared selectors dict object 1 in place. -/
theorem refine_selectors_new_toplevel_but_shared_selectors_mutated_witness :
    refine_selectors c7Heap c7Validation 0
      = some (refinedHeap c7Heap c7Validation 0 1 ["new-selector"],
          c7Heap.length) ∧
    getRef (refinedHeap c7Heap c7Validation 0 1 ["new-selector"]) 0
      = getRef c7Heap 0 ∧
    getRef (refinedHeap c7Heap c7Validation 0 1 ["new-selector"]) 1
      = pdSet (getRef c7Heap 1) "dealer_cards" (.list ["new-selector"]) :=
  refine_selectors_new_toplevel_but_shared_selectors_mutated c7Heap
    c7Validation 0 1 2 ["new-selector"] (by decide) (by decide) (by decide)
    (by decide) (by decide) (by decide) (by decide) (by decide) (by decide)
    (by decide) (by decide)

/-! ## Model-assisted refinement (`post_search_validator.py:215-314`)

`refine_selectors_with_llm` builds its prompt f-string *before* the
`try:` at line 284, and that f-string (line 255) subscripts
`original_config['selectors']['dealer_cards']`: a configuration without
those keys raises `KeyError` (or `TypeError` for a non-dict `'selectors'`)
straight out of the function.  Only the code from line 284 onwards is
guarded by `try/except` — its first statement is
`llm._call_llm(prompt, max_tokens=2000)`, but `LLMAnalyzer._call_llm`
(llm_analyzer.py:574) accepts only `prompt`, so the unexpected keyword
argument raises `TypeError` (and the next statement would call
`llm._parse_json_response`, a method that does not exist on `LLMAnalyzer`),
and the handler returns `original_config`. -/

/-- The parameters `LLMAnalyzer._call_llm` accepts besides `self`
(llm_analyzer.py:574: `def _call_llm(self, prompt)`). -/
def callLLMParams : List String := ["prompt"]

/-- The methods defined on `LLMAnalyzer` (llm_analyzer.py:17-862). -/
def llmAnalyzerMethods : List String :=
  ["__init__", "analyze_page_structure", "_extract_relevant_content",
   "_extract_locator_candidates", "_clean_candidate_url",
   "_normalize_url_for_compare", "_filter_locator_candidates",
   "_order_locator_candidates", "_score_locator_candidate",
   "_select_best_locator_candidate", "_parse_locator_selection_response",
   "find_dealer_locator_url", "_build_analysis_prompt", "_call_llm",
   "_fix_bracket_mismatches", "_parse_llm_response"]

/-- Python call semantics for the keyword arguments of a call: every keyword
must name a declared parameter, otherwise `TypeError` is raised before the
body runs. -/
def callWithKwargs (params kwargs : List String) : Except String Unit :=
  if kwargs.all (params.contains ·) then .ok ()
  else .error "TypeError: unexpected keyword argument"

/-- Python attribute lookup for a method call: a missing method raises
`AttributeError`. -/
def invokeMethod (methods : List String) (name : String) : Except String Unit :=
  if methods.contains name then .ok ()
  else .error "AttributeError: no such method"

/-- `PostSearchValidator.refine_selectors_with_llm`
(post_search_validator.py:215-314) over the heap model of configurations
(see `Heap`).  The prompt construction (lines 251-282) runs before the
`try:` and subscripts `original_config['selectors']['dealer_cards']`; an
error raised there propagates out of the function (`.error`).  `wouldRefine`
stands for the configuration the guarded body would build if the LLM
round-trip succeeded; the `try/except` at lines 284-314 maps any error
raised inside it to `original_config`. -/
def refine_selectors_with_llm (wouldRefine : Heap → Nat → Heap × Nat)
    (h : Heap) (originalConfig : Nat) : Except String (Heap × Nat) :=
  -- prompt = f"... {original_config['selectors']['dealer_cards']} ..."
  match pdGet (getRef h originalConfig) "selectors" with
  | some (.ref selr) =>
    match pdGet (getRef h selr) "dealer_cards" with
    | some _ =>
      -- try: (line 284)
      let body : Except String (Heap × Nat) := do
        -- response = llm._call_llm(prompt, max_tokens=2000)
        let _ ← callWithKwargs callLLMParams ["max_tokens"]
        -- result = llm._parse_json_response(response)
        let _ ← invokeMethod llmAnalyzerMethods "_parse_json_response"
        pure (wouldRefine h originalConfig)
      match body with
      | .ok r => .ok r
      -- except Exception: return original_config
      | .error _ => .ok (h, originalConfig)
    | none => .error "KeyError: dealer_cards"
  | some _ => .error "TypeError: selectors value is not subscriptable"
  | none => .error "KeyError: selectors"

/-- C10 counterexample: model-assisted refinement is NOT a no-op for every
configuration.  The prompt f-string subscripts
`original_config['selectors']['dealer_cards']` before the `try:`, so on a
configuration without a `'selectors'` key (here the empty dict, heap object
0) the function raises `KeyError` instead of returning the original
configuration. -/
theorem refine_selectors_with_llm_raises_without_selectors :
    refine_selectors_with_llm (fun h r => (h, r)) [[]] 0
      = .error "KeyError: selectors" := rfl

/-- C10 (amended): for every configuration on which the prompt construction
succeeds — `original_config['selectors']` is a dict that has a
`'dealer_cards'` entry — `refine_selectors_with_llm` returns the original
configuration unchanged (same heap, same reference), because the guarded
body's call `llm._call_llm(prompt, max_tokens=2000)` passes a keyword
argument `_call_llm` does not accept (and `llm._parse_json_response` does
not exist), so the body raises, the handler catches the error, and the
function falls through to `original_config`.  On a configuration without
those keys the f-string's subscripting raises before the `try:` and the
error propagates out instead (see the counterexample). -/
theorem refine_selectors_with_llm_noop_when_prompt_builds :
    (∀ (wouldRefine : Heap → Nat → Heap × Nat) (h : Heap)
      (cfg selr : Nat) (v : PyVal),
      pdGet (getRef h cfg) "selectors" = some (.ref selr) →
      pdGet (getRef h selr) "dealer_cards" = some v →
      refine_selectors_with_llm wouldRefine h cfg = .ok (h, cfg))
    ∧ callWithKwargs callLLMParams ["max_tokens"]
        = .error "TypeError: unexpected keyword argument"
    ∧ llmAnalyzerMethods.contains "_parse_json_response" = false := by
  refine ⟨?_, rfl, by decide⟩
  intro wouldRefine h cfg selr v hsel hcards
  unfold refine_selectors_with_llm
  rw [hsel]
  simp only [hcards]
  rfl

/-- Witness for C10 (amended): a configuration with
`selectors.dealer_cards` present is returned unchanged. -/
theorem refine_selectors_with_llm_noop_when_prompt_builds_witness :
    refine_selectors_with_llm (fun h r => (h, r))
      [[("selectors", .ref 1)], [("dealer_cards", .list ["x"])]] 0
      = .ok ([[("selectors", .ref 1)], [("dealer_cards", .list ["x"])]], 0) :=
  refine_selectors_with_llm_noop_when_prompt_builds.1
    (fun h r => (h, r))
    [[("selectors", .ref 1)], [("dealer_cards", .list ["x"])]] 0 1
    (.list ["x"]) rfl rfl

/-! ## Post-search validation (`utils/post_search_validator.py:21-175`)

The page is abstracted by the query capability the code uses: a function
`Sel` from a CSS selector to the (stripped) text of each matching element in
document order — `soup.select(sel)` composed with `el.get_text(strip=True)`. -/

abbrev Sel := String → List String

/-- `common_patterns` (post_search_validator.py:118-127). -/
def commonPatterns : List String :=
  ["[class*=\"dealer\"]", "[class*=\"location\"]", "[class*=\"store\"]",
   "[class*=\"result\"]", "[class*=\"card\"]", "[class*=\"listing\"]",
   "li[class*=\"item\"]", "div[class*=\"item\"]"]

/-- The validation loop over configured dealer-card selectors
(post_search_validator.py:50-58): first selector with ≥1 match wins. -/
def firstMatch (sel : Sel) : List String → List String
  | [] => []
  | s :: rest =>
    let cards := sel s
    if cards.isEmpty then firstMatch sel rest else cards

/-- `_analyze_html_for_dealers`'s candidate fold
(post_search_validator.py:129-145): keep the pattern with the most
"substantial" elements (text > 50 chars), requiring strictly more than the
running maximum and more than 2. -/
def bestPickAux (sel : Sel) :
    List String → Option String × Nat × List String →
      Option String × Nat × List String
  | [], acc => acc
  | p :: rest, acc =>
    let substantial := (sel p).filter (fun t => t.length > 50)
    bestPickAux sel rest
      (if substantial.length > acc.2.1 ∧ substantial.length > 2 then
        (some p, substantial.length, substantial)
      else acc)

def bestPick (sel : Sel) : Option String × Nat × List String :=
  bestPickAux sel commonPatterns (none, 0, [])

/-- Is an element text "dealer-like" (post_search_validator.py:151-155):
contains one of the five state abbreviations, or any digit? -/
def dealerLike (t : String) : Bool :=
  (["CA", "NY", "TX", "FL", "IL"].any fun st => containsSub st.data t.data)
  || t.data.any Char.isDigit

/-- `dealer_like_count` over the first five best elements
(post_search_validator.py:149-155). -/
def dealerLikeCount (els : List String) : Nat :=
  ((els.take 5).filter dealerLike).length

structure AnalyzeResult where
  selectors : List String
  confidence : ℚ
  dealer_count : Nat

/-- `PostSearchValidator._analyze_html_for_dealers`
(post_search_validator.py:101-175). -/
def analyze_html_for_dealers (sel : Sel) : AnalyzeResult :=
  let r := bestPick sel
  if r.1.isSome ∧ r.2.1 > 0 then
    { selectors := [r.1.getD ""],
      confidence := min (9/10) ((dealerLikeCount r.2.2 : ℚ) / 5 + 4/10),
      dealer_count := r.2.1 }
  else
    { selectors := [], confidence := 1/10, dealer_count := 0 }

structure VResult where
  dealers_found : Bool
  selectors_correct : Bool
  confidence : ℚ
  needs_refinement : Bool
  dealer_count : Nat
  suggested_selectors : Option (List String)

/-- `PostSearchValidator.validate_search_results`
(post_search_validator.py:21-99). -/
def validate_search_results (sel : Sel) (expectedCardSelectors : List String) :
    VResult :=
  let cards := firstMatch sel expectedCardSelectors
  if cards.length > 0 then
    { dealers_found := true, selectors_correct := true, confidence := 9/10,
      needs_refinement := false, dealer_count := cards.length,
      suggested_selectors := none }
  else
    let s := analyze_html_for_dealers sel
    if s.dealer_count > 0 then
      { dealers_found := true, selectors_correct := false,
        confidence := s.confidence, needs_refinement := true,
        dealer_count := s.dealer_count,
        suggested_selectors := some s.selectors }
    else
      { dealers_found := false, selectors_correct := false,
        confidence := 1/10, needs_refinement := true, dealer_count := 0,
        suggested_selectors := none }

theorem firstMatch_nil (sel : Sel) :
    ∀ l : List String, (∀ s ∈ l, sel s = []) → firstMatch sel l = [] := by
  intro l
  induction l with
  | nil => intro _; rfl
  | cons s rest ih =>
    intro h
    unfold firstMatch
    rw [h s (List.mem_cons_self _ _)]
    simp only [List.isEmpty_nil, if_true]
    exact ih (fun x hx => h x (List.mem_cons_of_mem _ hx))

theorem bestPickAux_mono (sel : Sel) :
    ∀ (ps : List String) (acc : Option String × Nat × List String),
    acc.2.1 ≤ (bestPickAux sel ps acc).2.1 := by
  intro ps
  induction ps with
  | nil => intro acc; exact le_refl _
  | cons p rest ih =>
    intro acc
    simp only [bestPickAux]
    by_cases h : ((sel p).filter (fun t => t.length > 50)).length > acc.2.1
      ∧ ((sel p).filter (fun t => t.length > 50)).length > 2
    · rw [if_pos h]
      exact le_trans (le_of_lt h.1)
        (ih (some p, ((sel p).filter (fun t => t.length > 50)).length,
          (sel p).filter (fun t => t.length > 50)))
    · rw [if_neg h]
      exact ih acc

theorem bestPickAux_exist (sel : Sel) :
    ∀ (ps : List String) (acc : Option String × Nat × List String),
    (∃ p ∈ ps, ((sel p).filter (fun t => t.length > 50)).length > 2) →
    (bestPickAux sel ps acc).2.1 > 2 := by
  intro ps
  induction ps with
  | nil =>
    intro acc h
    obtain ⟨p, hp, _⟩ := h
    exact absurd hp (List.not_mem_nil p)
  | cons q rest ih =>
    intro acc h
    simp only [bestPickAux]
    by_cases hq : ((sel q).filter (fun t => t.length > 50)).length > acc.2.1
      ∧ ((sel q).filter (fun t => t.length > 50)).length > 2
    · rw [if_pos hq]
      calc 2 < ((sel q).filter (fun t => t.length > 50)).length := hq.2
        _ ≤ _ := bestPickAux_mono sel rest
          (some q, ((sel q).filter (fun t => t.length > 50)).length,
            (sel q).filter (fun t => t.length > 50))
    · rw [if_neg hq]
      obtain ⟨p, hp, hcnt⟩ := h
      rcases List.mem_cons.mp hp with rfl | hp'
      · -- the head pattern itself exceeds 2, so the accumulator already does
        have : acc.2.1 > 2 := by
          rcases not_and_or.mp hq with hx | hx
          · omega
          · exact absurd hcnt hx
        calc 2 < acc.2.1 := this
          _ ≤ _ := bestPickAux_mono sel rest acc
      · exact ih acc ⟨p, hp', hcnt⟩

theorem bestPickAux_none (sel : Sel) :
    ∀ (ps : List String) (acc : Option String × Nat × List String),
    (acc.1 = none → acc.2.1 = 0) →
    (bestPickAux sel ps acc).1 = none → (bestPickAux sel ps acc).2.1 = 0 := by
  intro ps
  induction ps with
  | nil => intro acc h; exact h
  | cons q rest ih =>
    intro acc h
    simp only [bestPickAux]
    by_cases hq : ((sel q).filter (fun t => t.length > 50)).length > acc.2.1
      ∧ ((sel q).filter (fun t => t.length > 50)).length > 2
    · rw [if_pos hq]
      exact ih _ (fun hnone => by simp at hnone)
    · rw [if_neg hq]
      exact ih acc h

/-- C3: whenever none of the configured dealer-card selectors matches any
element, `validate_search_results` reports `needs_refinement = true`; and if
additionally some generic structural pattern matches more than 2 elements
each with more than 50 characters of text, it reports `dealers_found = true`
with `confidence = min(0.9, 0.4 + d/5)` where `d` counts, among the first
five matched elements of the winning pattern, those containing a recognized
US state abbreviation or any digit. -/
theorem validate_search_results_heuristic (sel : Sel) (cfgSel : List String)
    (hfail : ∀ s ∈ cfgSel, sel s = []) :
    (validate_search_results sel cfgSel).needs_refinement = true
    ∧ ((∃ p ∈ commonPatterns,
          ((sel p).filter (fun t => t.length > 50)).length > 2) →
        (validate_search_results sel cfgSel).dealers_found = true
        ∧ (validate_search_results sel cfgSel).confidence
            = min (9/10) (4/10 + (dealerLikeCount (bestPick sel).2.2 : ℚ) / 5)) := by
  have hcards : firstMatch sel cfgSel = [] := firstMatch_nil sel cfgSel hfail
  constructor
  · simp only [validate_search_results, hcards, List.length_nil]
    rw [if_neg (by omega)]
    by_cases h : (analyze_html_for_dealers sel).dealer_count > 0
    · rw [if_pos h]
    · rw [if_neg h]
  · intro hex
    have hm : (bestPick sel).2.1 > 2 :=
      bestPickAux_exist sel commonPatterns (none, 0, []) hex
    have hsome : (bestPick sel).1.isSome := by
      rcases ho : (bestPick sel).1 with _ | v
      · have h0 : (bestPick sel).2.1 = 0 :=
          bestPickAux_none sel commonPatterns (none, 0, []) (fun _ => rfl) ho
        omega
      · rfl
    have hana : analyze_html_for_dealers sel =
        { selectors := [(bestPick sel).1.getD ""],
          confidence :=
            min (9/10) ((dealerLikeCount (bestPick sel).2.2 : ℚ) / 5 + 4/10),
          dealer_count := (bestPick sel).2.1 } := by
      unfold analyze_html_for_dealers
      rw [if_pos ⟨hsome, by omega⟩]
    simp only [validate_search_results, hcards, List.length_nil]
    rw [if_neg (by omega), hana]
    rw [if_pos (by simpa using (by omega : (bestPick sel).2.1 > 0))]
    exact ⟨rfl, by ring_nf⟩

/-- Page for the C3 witness: the configured selector `.dealer-card` matches
nothing; the generic pattern `[class*="dealer"]` matches five elements, each
with more than 50 characters of text containing a state abbreviation and
digits. -/
def c3Card : String :=
  "Bob Smith Auto Dealership, 123 Main Street, Springfield, CA 90001 (555) 123-4567"

def c3Sel : Sel := fun s =>
  if s = "[class*=\"dealer\"]" then [c3Card, c3Card, c3Card, c3Card, c3Card]
  else []

/-- Witness for C3: on `c3Sel` the configured selectors fail, refinement is
flagged, dealers are found heuristically, all five sampled elements are
dealer-like, and the confidence is `min(0.9, 0.4 + 5/5) = 0.9 ≥ 0.7`. -/
theorem validate_search_results_heuristic_witness :
    (validate_search_results c3Sel [".dealer-card"]).needs_refinement = true
    ∧ (validate_search_results c3Sel [".dealer-card"]).dealers_found = true
    ∧ (validate_search_results c3Sel [".dealer-card"]).confidence = 9/10
    ∧ ((9 : ℚ)/10 ≥ 7/10) := by
  have h := validate_search_results_heuristic c3Sel [".dealer-card"]
    (by intro s hs; simp at hs; subst hs; rfl)
  have hex : ∃ p ∈ commonPatterns,
      ((c3Sel p).filter (fun t => t.length > 50)).length > 2 := by
    refine ⟨"[class*=\"dealer\"]", by decide, by decide⟩
  obtain ⟨hnr, himp⟩ := h
  obtain ⟨hdf, hconf⟩ := himp hex
  refine ⟨hnr, hdf, ?_, by norm_num⟩
  have h5 : dealerLikeCount (bestPick c3Sel).2.2 = 5 := by decide
  rw [hconf, h5]
  norm_num [min_def]

/-! ## Field extraction (`scrape_dealers.py:622-671`)

An element is abstracted by what `_get_element_value` reads from it: its
stripped text and its attributes; a card by `select_one` and `get_text`. -/

structure Elem where
  text : String
  attrs : String → Option String

structure Card where
  selectOne : String → Option Elem
  text : String

/-- A field configuration dict (`data_fields` entry): `selector`,
`fallback_patterns`, `type` (default `text`), `attribute` (default
`href`). -/
structure FieldConfig where
  selector : Option String
  fallback_patterns : List String
  ftype : Option String
  attr : Option String

/-- `_get_element_value` (scrape_dealers.py:652-671). -/
def get_element_value (el : Elem) (fc : FieldConfig) : String :=
  let ftype := fc.ftype.getD "text"
  if ftype = "text" then el.text
  else if ftype = "href" then (el.attrs (fc.attr.getD "href")).getD ""
  else el.text

/-- The fallback loop of `_extract_field` (scrape_dealers.py:644-648):
return the value of the first pattern whose `select_one` finds an element —
even when that value is empty. -/
def tryPatterns (card : Card) (fc : FieldConfig) : List String → String
  | [] => ""
  | p :: rest =>
    match card.selectOne p with
    | some el => get_element_value el fc
    | none => tryPatterns card fc rest

theorem tryPatterns_all_none (card : Card) (fc : FieldConfig) :
    ∀ l : List String, (∀ q ∈ l, card.selectOne q = none) →
    tryPatterns card fc l = "" := by
  intro l
  induction l with
  | nil => intro _; rfl
  | cons q qs ih =>
    intro hall
    rw [tryPatterns, hall q (List.mem_cons_self _ _)]
    exact ih (fun x hx => hall x (List.mem_cons_of_mem _ hx))

/-- `_extract_field` (scrape_dealers.py:622-650).  `none` models the empty
`field_config` dict (`if not field_config: return ""`); a falsy (empty)
primary selector skips straight to the fallback patterns. -/
def extract_field (card : Card) : Option FieldConfig → String
  | none => ""
  | some fc =>
    match fc.selector with
    | some s =>
      if s.isEmpty then tryPatterns card fc fc.fallback_patterns
      else
        match card.selectOne s with
        | some el => get_element_value el fc
        | none => tryPatterns card fc fc.fallback_patterns
    | none => tryPatterns card fc fc.fallback_patterns

/-- Card for the C6 counterexample: the primary selector matches an element
whose text is empty; the first fallback matches an element with non-empty
text. -/
def c6Card : Card :=
  { selectOne := fun s =>
      if s = ".primary" then some { text := "", attrs := fun _ => none }
      else if s = ".fb" then
        some { text := "Fallback Motors", attrs := fun _ => none }
      else none,
    text := "" }

def c6FC : FieldConfig :=
  { selector := some ".primary", fallback_patterns := [".fb"],
    ftype := none, attr := none }

/-- C6 counterexample: `_extract_field` does NOT return the first non-empty
value along the primary-then-fallbacks chain.  When the primary selector
matches an element whose value is empty, that empty value is returned
immediately and the fallbacks are never consulted, even though the first
fallback would produce `"Fallback Motors"`. -/
theorem extract_field_not_first_nonempty :
    extract_field c6Card (some c6FC) = ""
    ∧ c6Card.selectOne ".primary"
        = some { text := "", attrs := fun _ => none }
    ∧ (c6Card.selectOne ".fb").map (fun el => get_element_value el c6FC)
        = some "Fallback Motors" := by
  refine ⟨rfl, ?_, ?_⟩ <;> rfl

/-- C6 (amended): `_extract_field` tries the primary selector and then each
fallback pattern in order and returns the value of the *first pattern that
matches an element* (that value may itself be empty); if the primary
selector and every fallback pattern match no element it returns the empty
string rather than raising.  In particular, when the primary selector
matches nothing and the first fallback pattern matches an element, that
element's value is returned. -/
theorem extract_field_first_matching_element (card : Card)
    (fc : FieldConfig) (s : String) (e : Elem) (p : String)
    (rest : List String) :
    (fc.selector = some s → s.isEmpty = false → card.selectOne s = some e →
      extract_field card (some fc) = get_element_value e fc)
    ∧ (fc.selector = some s → s.isEmpty = false → card.selectOne s = none →
        fc.fallback_patterns = p :: rest → card.selectOne p = some e →
        extract_field card (some fc) = get_element_value e fc)
    ∧ (fc.selector = some s → s.isEmpty = false → card.selectOne s = none →
        (∀ q ∈ fc.fallback_patterns, card.selectOne q = none) →
        extract_field card (some fc) = "") := by
  refine ⟨?_, ?_, ?_⟩
  · intro hsel hne hone
    simp [extract_field, hsel, hne, hone]
  · intro hsel hne hone hfb hp
    simp [extract_field, hsel, hne, hone, hfb, tryPatterns, hp]
  · intro hsel hne hone hall
    simp only [extract_field, hsel, hne, Bool.false_eq_true, if_false, hone]
    exact tryPatterns_all_none card fc fc.fallback_patterns hall

/-- Card for the C6 witness: the primary selector matches nothing and the
first fallback matches a non-empty element. -/
def c6bCard : Card :=
  { selectOne := fun s =>
      if s = ".fb" then
        some { text := "Fallback Motors", attrs := fun _ => none }
      else none,
    text := "" }

/-- Witness for C6 (amended): the fallback's value is returned, not the
empty string. -/
theorem extract_field_first_matching_element_witness :
    extract_field c6bCard (some c6FC) = "Fallback Motors" := by
  have h := (extract_field_first_matching_element c6bCard c6FC ".primary"
    { text := "Fallback Motors", attrs := fun _ => none } ".fb" []).2.1
  rw [h (by rfl) (by rfl) (by rfl) (by rfl) (by rfl)]
  rfl

/-! ## Dealer-card parsing (`scrape_dealers.py:568-620`, `utils/extraction.py:56-92`)

`parse_address` always returns a 4-tuple; `_parse_dealer_card` calls `.get`
on that result as if it were a dict.  The Python dynamic error is modelled
with `Except`: `.get` on a tuple raises `AttributeError`. -/

inductive PyErr where
  | attributeError
deriving DecidableEq, Repr

/-- The value bound to `address_parts`: `{}` when the extracted address was
empty, otherwise the 4-tuple returned by `parse_address`. -/
inductive AddrParts where
  | emptyDict
  | tup : String × String × String × String → AddrParts

/-- `address_parts.get(key, default)`: fine on the empty dict, but an
`AttributeError` on a tuple (tuples have no `.get`). -/
def addrGet : AddrParts → String → String → Except PyErr String
  | .emptyDict, _, dflt => .ok dflt
  | .tup _, _, _ => .error .attributeError

structure Dealer where
  name : String
  address : String
  city : String
  state : String
  zip_code : String
  phone : String
  website : String
  dealer_type : String
  distance : String
  search_zip : String
deriving DecidableEq, Repr

/-- `_parse_dealer_card` (scrape_dealers.py:568-620).  The helpers from
`utils/extraction.py` whose internals are irrelevant here are taken as
parameters: `parse_address` (which returns a 4-tuple, extraction.py:56-92),
`cleanName` (`clean_name`, returning `none` for invalid names — modelled as
`""` in the `Dealer`, which Python's later falsy test treats identically),
`extractPhone`, `extractWebsite`, `extractDistance`. -/
def parse_dealer_card
    (parse_address : String → String × String × String × String)
    (cleanName : String → Option String)
    (extractPhone : String → String → String)
    (extractWebsite : String → String)
    (extractDistance : String → String)
    (df : String → Option FieldConfig)
    (card : Card) (zip_code : String) : Except PyErr (Option Dealer) :=
  let name := extract_field card (df "name")
  if name = "" then .ok none
  else
    let nameC := (cleanName name).getD ""
    let address_raw := extract_field card (df "address")
    let address_parts : AddrParts :=
      if address_raw = "" then .emptyDict else .tup (parse_address address_raw)
    let phone_raw := extract_field card (df "phone")
    let phone := if phone_raw = "" then "" else extractPhone phone_raw card.text
    let website_raw := extract_field card (df "website")
    let website := if website_raw = "" then "" else extractWebsite website_raw
    let distance := extractDistance card.text
    let dt := extract_field card (df "dealer_type")
    let dealer_type := if dt = "" then "Standard" else dt
    do
      let address ← addrGet address_parts "street" address_raw
      let city ← addrGet address_parts "city" ""
      let state ← addrGet address_parts "state" ""
      let zip ← addrGet address_parts "zip" ""
      pure (some { name := nameC, address := address, city := city,
                   state := state, zip_code := zip, phone := phone,
                   website := website, dealer_type := dealer_type,
                   distance := distance, search_zip := zip_code })

/-- Python `str.lower()` on a Lean `String` (see `pyLower`). -/
def pyLowerStr (s : String) : String := ⟨pyLower s.data⟩

/-- `SKIP_NAMES` (scrape_dealers.py:75-85). -/
def SKIP_NAMES : List String :=
  ["search by", "location", "name", "clear", "advanced search",
   "view map", "make my dealer", "chat with dealer", "dealer website",
   "find more", "view more", "load more", "show more", "see more",
   "locate dealer", "find a dealer", "dealer locator", "search dealers",
   "zip code", "use current location", "update matches",
   "filter by services", "dealerships found", "dealers found",
   "available vehicles", "available dealer services",
   "today's sales hours", "sales & services hours",
   "view dealer inventory", "get directions", "miles away"]

/-- `_is_valid_dealer` (scrape_dealers.py:672-694): non-falsy name, and no
skip phrase inside the lowercased name when the name is shorter than 50
characters. -/
def is_valid_dealer (d : Dealer) : Bool :=
  if d.name = "" then false
  else !(SKIP_NAMES.any fun sn =>
    containsSub sn.data (pyLowerStr d.name).data && decide (d.name.length < 50))

/-- The de-duplication key of the HTML path
(scrape_dealers.py:555: `f"{dealer.name}|{dealer.zip_code}".lower()`). -/
def dealer_key (d : Dealer) : String := pyLowerStr (d.name ++ "|" ++ d.zip_code)

/-- The card-selector loop of `_extract_dealers_from_html`
(scrape_dealers.py:529-541): first selector with ≥1 match wins. -/
def firstCards (select : String → List Card) : List String → List Card
  | [] => []
  | s :: rest =>
    let found := select s
    if found.isEmpty then firstCards select rest else found

/-- Per-card body of the `_extract_dealers_from_html` loop
(scrape_dealers.py:549-564): a raised exception skips the card; a parsed,
valid dealer is appended unless its `name|zip` key was already seen this
session. -/
def htmlStep (parse : Card → Except PyErr (Option Dealer))
    (acc : List Dealer × List String) (card : Card) :
    List Dealer × List String :=
  match parse card with
  | .error _ => acc
  | .ok none => acc
  | .ok (some d) =>
    if is_valid_dealer d then
      if acc.2.contains (dealer_key d) then acc
      else (acc.1 ++ [d], dealer_key d :: acc.2)
    else acc

/-- `_extract_dealers_from_html` (scrape_dealers.py:508-566): the page is
abstracted by `select` (`soup.select`); `seen0` is the session's
`self.seen_dealers` set on entry; returns the extracted dealers and the
updated seen-set. -/
def extract_dealers_from_html (parse : Card → Except PyErr (Option Dealer))
    (select : String → List Card) (cardSelectors : List String)
    (seen0 : List String) : List Dealer × List String :=
  if cardSelectors.isEmpty then ([], seen0)
  else (firstCards select cardSelectors).foldl (htmlStep parse) ([], seen0)

/-- C9 counterexample: the claim "for *every* card whose address-field
extraction yields a non-empty string, `_parse_dealer_card` raises
`AttributeError`" fails for a card whose name extraction is empty: the
function returns `None` (no dealer) before ever touching the address. -/
def c9df : String → Option FieldConfig := fun f =>
  if f = "name" then
    some { selector := some ".name", fallback_patterns := [], ftype := none,
           attr := none }
  else if f = "address" then
    some { selector := some ".addr", fallback_patterns := [], ftype := none,
           attr := none }
  else none

/-- A card with non-empty name and address extractions. -/
def cFullCard : Card :=
  { selectOne := fun s =>
      if s = ".name" then some { text := "Bob's Auto", attrs := fun _ => none }
      else if s = ".addr" then
        some { text := "123 Main St, Anytown, CA 12345", attrs := fun _ => none }
      else none,
    text := "" }

/-- The page-handle path's de-duplication key (scrape_dealers.py:1215). -/
def dedupe_key (d : Dealer) : String :=
  pyLowerStr d.name ++ "|" ++ pyLowerStr d.address

/-- Per-card body of the `_extract_dealers` loop
(scrape_dealers.py:1210-1221); `extract` returning `none` models both "no
dealer" and a raised, caught exception. -/
def pwStep (extract : Card → Option Dealer)
    (acc : List Dealer × List String) (card : Card) :
    List Dealer × List String :=
  match extract card with
  | none => acc
  | some d =>
    if acc.2.contains (dedupe_key d) then acc
    else (acc.1 ++ [d], dedupe_key d :: acc.2)

/-- `_extract_dealers` (scrape_dealers.py:1176-1221), given the gathered
card list. -/
def extract_dealers (extract : Card → Option Dealer) (cards : List Card) :
    List Dealer :=
  (cards.foldl (pwStep extract) ([], [])).1

/-- Invariant of the `_extract_dealers` loop: output keys are pairwise
distinct and agree with the seen-set. -/
def pwInv (acc : List Dealer × List String) : Prop :=
  acc.1.Pairwise (fun a b => dedupe_key a ≠ dedupe_key b)
  ∧ (∀ d ∈ acc.1, dedupe_key d ∈ acc.2)
  ∧ (∀ k ∈ acc.2, ∃ d ∈ acc.1, dedupe_key d = k)

theorem contains_iff_mem (l : List String) (s : String) :
    l.contains s = true ↔ s ∈ l := by
  simp

theorem pwStep_inv (extract : Card → Option Dealer)
    (acc : List Dealer × List String) (card : Card) (h : pwInv acc) :
    pwInv (pwStep extract acc card) := by
  unfold pwStep
  rcases extract card with _ | d
  · exact h
  · show pwInv (if acc.2.contains (dedupe_key d) = true then acc
      else (acc.1 ++ [d], dedupe_key d :: acc.2))
    by_cases hc : acc.2.contains (dedupe_key d) = true
    · rw [if_pos hc]
      exact h
    · rw [if_neg hc]
      obtain ⟨h1, h2, h3⟩ := h
      refine ⟨?_, ?_, ?_⟩
      · rw [List.pairwise_append]
        refine ⟨h1, List.pairwise_singleton _ _, ?_⟩
        intro a ha b hb
        rw [List.mem_singleton] at hb
        subst hb
        intro heq
        exact hc ((contains_iff_mem _ _).mpr (heq ▸ h2 a ha))
      · intro d' hd'
        rcases List.mem_append.mp hd' with hm | hm
        · exact List.mem_cons_of_mem _ (h2 d' hm)
        · rw [List.mem_singleton] at hm
          subst hm
          exact List.mem_cons_self _ _
      · intro k hk
        rcases List.mem_cons.mp hk with rfl | hk'
        · exact ⟨d, List.mem_append.mpr (Or.inr (List.mem_singleton.mpr rfl)),
            rfl⟩
        · obtain ⟨d', hd', hkey⟩ := h3 k hk'
          exact ⟨d', List.mem_append.mpr (Or.inl hd'), hkey⟩

theorem pwStep_foldl_inv (extract : Card → Option Dealer) (cards : List Card) :
    ∀ acc, pwInv acc → pwInv (cards.foldl (pwStep extract) acc) := by
  induction cards with
  | nil => intro acc h; exact h
  | cons c rest ih =>
    intro acc h
    rw [List.foldl_cons]
    exact ih _ (pwStep_inv extract acc c h)

theorem pwStep_foldl_mono (extract : Card → Option Dealer)
    (cards : List Card) :
    ∀ acc (d : Dealer), d ∈ acc.1 →
      d ∈ (cards.foldl (pwStep extract) acc).1 := by
  induction cards with
  | nil => intro acc d h; exact h
  | cons c rest ih =>
    intro acc d h
    rw [List.foldl_cons]
    refine ih _ d ?_
    unfold pwStep
    rcases extract c with _ | d'
    · exact h
    · show d ∈ (if acc.2.contains (dedupe_key d') = true then acc
        else (acc.1 ++ [d'], dedupe_key d' :: acc.2)).1
      by_cases hc : acc.2.contains (dedupe_key d') = true
      · rw [if_pos hc]; exact h
      · rw [if_neg hc]
        exact List.mem_append.mpr (Or.inl h)

theorem pwStep_foldl_cover (extract : Card → Option Dealer)
    (cards : List Card) :
    ∀ acc, pwInv acc → ∀ c ∈ cards, ∀ d, extract c = some d →
      ∃ d' ∈ (cards.foldl (pwStep extract) acc).1,
        dedupe_key d' = dedupe_key d := by
  induction cards with
  | nil =>
    intro acc _ c hc
    exact absurd hc (List.not_mem_nil c)
  | cons c0 rest ih =>
    intro acc hinv c hc d hd
    rw [List.foldl_cons]
    rcases List.mem_cons.mp hc with rfl | hc'
    · -- the card is the head: after this step some dealer carries the key
      have hstep : ∃ d' ∈ (pwStep extract acc c).1,
          dedupe_key d' = dedupe_key d := by
        unfold pwStep
        rw [hd]
        show ∃ d' ∈ (if acc.2.contains (dedupe_key d) = true then acc
            else (acc.1 ++ [d], dedupe_key d :: acc.2)).1,
          dedupe_key d' = dedupe_key d
        by_cases hcon : acc.2.contains (dedupe_key d) = true
        · rw [if_pos hcon]
          exact hinv.2.2 _ ((contains_iff_mem _ _).mp hcon)
        · rw [if_neg hcon]
          exact ⟨d, List.mem_append.mpr (Or.inr (List.mem_singleton.mpr rfl)),
            rfl⟩
      obtain ⟨d', hd', hkey⟩ := hstep
      exact ⟨d', pwStep_foldl_mono extract rest _ d' hd', hkey⟩
    · exact ih _ (pwStep_inv extract acc c0 hinv) c hc' d hd

/-- C5 (amended, page-handle path): within one run of `_extract_dealers`,
records are de-duplicated by the lowercased `name|address` pair: the output
carries pairwise distinct keys, and every extracted dealer's key is
represented by exactly one output record — so two cards yielding identical
`(name.lower(), address.lower())` produce exactly one record, the repeat
being silently dropped rather than raising. -/
theorem extract_dealers_dedup (extract : Card → Option Dealer)
    (cards : List Card) :
    (extract_dealers extract cards).Pairwise
      (fun a b => dedupe_key a ≠ dedupe_key b)
    ∧ (∀ c ∈ cards, ∀ d, extract c = some d →
        ∃ d' ∈ extract_dealers extract cards,
          dedupe_key d' = dedupe_key d) := by
  have hinv0 : pwInv ([], []) := by
    refine ⟨List.Pairwise.nil, ?_, ?_⟩ <;> intro x hx <;>
      exact absurd hx (List.not_mem_nil x)
  constructor
  · exact (pwStep_foldl_inv extract cards ([], []) hinv0).1
  · intro c hc d hd
    exact pwStep_foldl_cover extract cards ([], []) hinv0 c hc d hd

/-- C5 counterexample: in the HTML extraction path the claim fails.  Two
identical cards yielding the same non-empty `(name.lower(),
address.lower())` pair produce ZERO records (not exactly one): each card's
parse raises `AttributeError` (see C9) and is skipped — and that path's
de-duplication key is `name|zip_code`, not `name|address`. -/
theorem dedup_by_name_address_fails_html_path :
    extract_field cFullCard (c9df "name") = "Bob's Auto"
    ∧ extract_field cFullCard (c9df "address")
        = "123 Main St, Anytown, CA 12345"
    ∧ extract_dealers_from_html
        (fun c => parse_dealer_card (fun _ => ("", "", "", "")) some
          (fun a _ => a) id (fun _ => "") c9df c "90210")
        (fun sel => if sel = ".card" then [cFullCard, cFullCard] else [])
        [".card"] [] = ([], []) :=
  ⟨rfl, rfl, rfl⟩

def blankCard : Card := { selectOne := fun _ => none, text := "" }

def dA : Dealer :=
  { name := "Bob's Auto", address := "1 Main St", city := "", state := "",
    zip_code := "", phone := "", website := "", dealer_type := "Standard",
    distance := "", search_zip := "90210" }

/-- Witness for C5 (amended): two cards extracting the same dealer produce
exactly one record in `_extract_dealers`' output. -/
theorem extract_dealers_dedup_witness :
    extract_dealers (fun _ => some dA) [blankCard, blankCard] = [dA]
    ∧ ∃ d' ∈ extract_dealers (fun _ => some dA) [blankCard, blankCard],
        dedupe_key d' = dedupe_key dA :=
  ⟨by decide, (extract_dealers_dedup (fun _ => some dA) [blankCard, blankCard]).2
    blankCard (List.mem_cons_self _ _) dA rfl⟩

/-! ## JSON bracket repair (`utils/llm_analyzer.py:616-724`)

`_fix_bracket_mismatches` is a single left-to-right scan holding: whether
the position is inside a string literal (honouring backslash escapes), a
stack of expected closing brackets, and — for the `(`-context heuristic —
the last non-whitespace character already written to the result. -/

structure BState where
  inStr : Bool
  esc : Bool
  stk : List Char
  lastNS : Option Char
deriving DecidableEq, Repr

def initB : BState := ⟨false, false, [], none⟩

/-- Record the last non-whitespace character written to the result (the
backwards scan at llm_analyzer.py:669-673 over the mutated buffer). -/
def updLast (st : BState) (c : Char) : BState :=
  if c = ' ' ∨ c = '\t' ∨ c = '\n' ∨ c = '\r' then st
  else { st with lastNS := some c }

/-- Context test for a `(` that "looks like it should be a `[`"
(llm_analyzer.py:675). -/
def isOpenParenLike : Option Char → Bool
  | some ':' => true
  | some ',' => true
  | some '[' => true
  | _ => false

/-- The mismatch table (llm_analyzer.py:688-709): each wrong closer among
`]`, `}`, `)` is replaced by the expected one; anything else is kept. -/
def fixClose (c e : Char) : Char :=
  if c = ')' ∧ e = ']' then ']'
  else if c = ']' ∧ e = ')' then ')'
  else if c = ')' ∧ e = '}' then '}'
  else if c = '}' ∧ e = ')' then ')'
  else if c = ']' ∧ e = '}' then '}'
  else if c = '}' ∧ e = ']' then ']'
  else c

/-- One iteration of the `while i < len(result)` loop
(llm_analyzer.py:640-721), without the `lastNS` update: the emitted
character and the next state. -/
def stepB (st : BState) (c : Char) : Char × BState :=
  if st.esc then (c, { st with esc := false })
  else if c = '\\' ∧ st.inStr then (c, { st with esc := true })
  else if c = '"' then (c, { st with inStr := !st.inStr })
  else if st.inStr then (c, st)
  else if c = '[' then (c, { st with stk := ']' :: st.stk })
  else if c = '{' then (c, { st with stk := '}' :: st.stk })
  else if c = '(' then
    if isOpenParenLike st.lastNS then ('[', { st with stk := ']' :: st.stk })
    else ('(', { st with stk := ')' :: st.stk })
  else if c = ']' ∨ c = '}' ∨ c = ')' then
    match st.stk with
    | [] => (c, st)
    | e :: rest =>
      if c = e then (c, { st with stk := rest })
      else (fixClose c e, { st with stk := rest })
  else (c, st)

def stepFull (st : BState) (c : Char) : Char × BState :=
  let r := stepB st c
  (r.1, updLast r.2 r.1)

/-- The whole scan: emitted characters and final state. -/
def scanB : BState → List Char → List Char × BState
  | st, [] => ([], st)
  | st, c :: cs =>
    let r := stepFull st c
    let rest := scanB r.2 cs
    (r.1 :: rest.1, rest.2)

/-- `LLMAnalyzer._fix_bracket_mismatches` (llm_analyzer.py:616-724). -/
def fix_bracket_mismatches (s : String) : String :=
  if s = "" then s else ⟨(scanB initB s.data).1⟩

theorem scanB_append (st : BState) (xs ys : List Char) :
    scanB st (xs ++ ys)
      = ((scanB st xs).1 ++ (scanB (scanB st xs).2 ys).1,
         (scanB (scanB st xs).2 ys).2) := by
  induction xs generalizing st with
  | nil => simp [scanB]
  | cons c cs ih =>
    simp only [List.cons_append, scanB, List.append_eq, ih]

theorem scanB_length (st : BState) (xs : List Char) :
    (scanB st xs).1.length = xs.length := by
  induction xs generalizing st with
  | nil => rfl
  | cons c cs ih =>
    simp only [scanB, List.length_cons, ih]

theorem scanB_prefix (st : BState) (xs ys : List Char)
    (h : (scanB st (xs ++ ys)).1 = xs ++ ys) :
    (scanB st xs).1 = xs ∧ (scanB (scanB st xs).2 ys).1 = ys := by
  rw [scanB_append] at h
  exact List.append_inj h (by rw [scanB_length])

theorem stepB_close_match (st : BState) (rest : List Char)
    (hi : st.inStr = false) (he : st.esc = false)
    (hs : st.stk = ']' :: rest) :
    stepB st ']' = (']', { st with stk := rest }) := by
  unfold stepB
  rw [hi, he, hs]
  simp

theorem stepB_close_mismatch (st : BState) (rest : List Char)
    (hi : st.inStr = false) (he : st.esc = false)
    (hs : st.stk = ']' :: rest) :
    stepB st ')' = (']', { st with stk := rest }) := by
  unfold stepB
  rw [hi, he, hs]
  simp [fixClose]

/-- C4: bracket repair round-trips a single corruption.  If `j = a ++ "]" ++ b`
is a fixed point of the repair pass (as every well-formed JSON text is: all
its brackets outside string literals match), and the displayed `]` closes an
array outside any string literal — after scanning `a` the tracker is outside
a string, not mid-escape, and the expected-closer stack starts with `]` —
then corrupting that `]` to `)` is undone exactly:
`_fix_bracket_mismatches (a ++ ")" ++ b) = a ++ "]" ++ b`.  The repaired
text being character-for-character the original, it parses to the same
structure. -/
theorem fix_bracket_mismatches_roundtrip (a b rest : List Char)
    (hfix : fix_bracket_mismatches ⟨a ++ ']' :: b⟩ = ⟨a ++ ']' :: b⟩)
    (hin : (scanB initB a).2.inStr = false)
    (hesc : (scanB initB a).2.esc = false)
    (hstk : (scanB initB a).2.stk = ']' :: rest) :
    fix_bracket_mismatches ⟨a ++ ')' :: b⟩ = ⟨a ++ ']' :: b⟩ := by
  have hne : (⟨a ++ ']' :: b⟩ : String) ≠ "" := by
    intro h
    have h2 := congrArg String.data h
    simp at h2
  have hfix' : (scanB initB (a ++ ']' :: b)).1 = a ++ ']' :: b := by
    unfold fix_bracket_mismatches at hfix
    rw [if_neg hne] at hfix
    exact congrArg String.data hfix
  obtain ⟨ha, hsb⟩ := scanB_prefix initB a (']' :: b) hfix'
  have hstep1 : stepFull (scanB initB a).2 ']'
      = (']', updLast { (scanB initB a).2 with stk := rest } ']') := by
    unfold stepFull
    rw [stepB_close_match (scanB initB a).2 rest hin hesc hstk]
  have hstep2 : stepFull (scanB initB a).2 ')'
      = (']', updLast { (scanB initB a).2 with stk := rest } ']') := by
    unfold stepFull
    rw [stepB_close_mismatch (scanB initB a).2 rest hin hesc hstk]
  have hb : (scanB (updLast { (scanB initB a).2 with stk := rest } ']') b).1
      = b := by
    have h3 : (scanB (scanB initB a).2 (']' :: b)).1
        = ']' :: (scanB (updLast { (scanB initB a).2 with stk := rest } ']')
            b).1 := by
      simp only [scanB, hstep1]
    rw [h3] at hsb
    exact List.cons.inj hsb |>.2
  have hne2 : (⟨a ++ ')' :: b⟩ : String) ≠ "" := by
    intro h
    have h2 := congrArg String.data h
    simp at h2
  unfold fix_bracket_mismatches
  rw [if_neg hne2]
  have hout : (scanB initB (a ++ ')' :: b)).1 = a ++ ']' :: b := by
    rw [scanB_append]
    show (scanB initB a).1 ++ (scanB (scanB initB a).2 (')' :: b)).1
      = a ++ ']' :: b
    rw [ha]
    have h4 : (scanB (scanB initB a).2 (')' :: b)).1
        = ']' :: (scanB (updLast { (scanB initB a).2 with stk := rest } ']')
            b).1 := by
      simp only [scanB, hstep2]
    rw [h4, hb]
  rw [hout]

/-- Witness for C4 at `{"a": [1, 2]}`: corrupting the array's `]` to `)`
(outside the string literal `"a"`) is repaired exactly. -/
theorem fix_bracket_mismatches_roundtrip_witness :
    fix_bracket_mismatches "\x7b\"a\": [1, 2)\x7d" = "\x7b\"a\": [1, 2]\x7d" := by
  have h := fix_bracket_mismatches_roundtrip "\x7b\"a\": [1, 2".data "\x7d".data
    ['\x7d'] (by decide) (by decide) (by decide) (by decide)
  have e1 : ("\x7b\"a\": [1, 2)\x7d" : String)
      = ⟨"\x7b\"a\": [1, 2".data ++ ')' :: "\x7d".data⟩ := by decide
  have e2 : ("\x7b\"a\": [1, 2]\x7d" : String)
      = ⟨"\x7b\"a\": [1, 2".data ++ ']' :: "\x7d".data⟩ := by decide
  rw [e1, e2]
  exact h
